import Mathlib

/-!
Verification of the Lorenz-63 forward-Euler integrator
(src/rust/lorenz-63/lorenz.rs) against its specification.

The program is embedded shallowly over `ℚ` (exact arithmetic): the three
mutable position scalars become a `State` record, the three derivative
temporaries a `Deriv` record, the loop body of `main` (lines 20-25) a pure
function `loopBody`, and the spec-level operations `computeDerivative` and
`step` are stated over explicit `Params`.  The driving loop `for i in 1..100`
becomes the index list `List.range' 1 99` and the iterated state sequence
`runSeq` / `traj`.
-/

namespace Lorenz

/-- The position `(x, y, z)`, source line 8. -/
structure State where
  x : ℚ
  y : ℚ
  z : ℚ
deriving DecidableEq

/-- The derivative triple `(dx, dy, dz)`, source line 9. -/
structure Deriv where
  dx : ℚ
  dy : ℚ
  dz : ℚ
deriving DecidableEq

/-- The three scalar parameters `(p1, p2, p3)` of the spec's data model. -/
structure Params where
  p1 : ℚ
  p2 : ℚ
  p3 : ℚ
deriving DecidableEq

/-- Source line 4: `const RHO: f64 = 10.0;`. -/
def RHO : ℚ := 10

/-- Source line 5: `const SIGMA: f64 = 8.0 / 3.0;`. -/
def SIGMA : ℚ := 8 / 3

/-- Source line 6: `const BETA: f64 = 28.0;`. -/
def BETA : ℚ := 28

/-- Source line 10: `let dt = 1e-3;`. -/
def dt : ℚ := 1 / 1000

/-- Source line 8: initial position `(1.0, 1.0, 1.0)`. -/
def s0 : State := ⟨1, 1, 1⟩

/-- One iteration of the source loop body (lines 20-25), statement by
statement: the three derivative components are computed first, from the
current state, and only then are the three coordinates updated. -/
def loopBody (s : State) : State :=
  let dx := SIGMA * (s.y - s.x)
  let dy := s.x * (RHO - s.z) - s.y
  let dz := s.x * s.y - BETA * s.z
  let x := s.x + dt * dx
  let y := s.y + dt * dy
  let z := s.z + dt * dz
  ⟨x, y, z⟩

/-- A deliberately wrong Gauss-Seidel-style variant of the loop body in which
already-updated coordinates leak into the derivative computation of the same
step.  Used only to witness that `loopBody` is not of this shape. -/
def seqUpdateBody (s : State) : State :=
  let dx := SIGMA * (s.y - s.x)
  let x := s.x + dt * dx
  let dy := x * (RHO - s.z) - s.y
  let y := s.y + dt * dy
  let dz := x * y - BETA * s.z
  let z := s.z + dt * dz
  ⟨x, y, z⟩

/-- The spec's operation `computeDerivative(state, params)`:
`dx = p2·(y−x)`, `dy = x·(p1−z)−y`, `dz = x·y−p3·z`. -/
def computeDerivative (s : State) (p : Params) : Deriv :=
  ⟨p.p2 * (s.y - s.x), s.x * (p.p1 - s.z) - s.y, s.x * s.y - p.p3 * s.z⟩

/-- The spec's operation `step(state, params, dt)`: a forward Euler update by
the derivative of the pre-step state. -/
def step (s : State) (p : Params) (h : ℚ) : State :=
  let d := computeDerivative s p
  ⟨s.x + h * d.dx, s.y + h * d.dy, s.z + h * d.dz⟩

/-- The parameter triple the program binds: `(p1, p2, p3) = (RHO, SIGMA, BETA)`,
exactly as the constants are consumed on source lines 20-22. -/
def lorenzParams : Params := ⟨RHO, SIGMA, BETA⟩

/-- The state after `n` applications of `step` from `s` with parameters `p`
and time increment `h`. -/
def runSeq (s : State) (p : Params) (h : ℚ) : ℕ → State
  | 0 => s
  | n + 1 => step (runSeq s p h n) p h

/-- The program's trajectory: `traj n` is the state after `n` loop iterations
from the baked-in initial state and constants. -/
def traj (n : ℕ) : State := runSeq s0 lorenzParams dt n

/-- C1: `computeDerivative` returns exactly
`(p2·(y−x), x·(p1−z)−y, x·y−p3·z)` for every state and parameter triple, and
in the program the parameter values are `p1 = 10`, `p2 = 8/3`, `p3 = 28`,
bound to the constants named `RHO`, `SIGMA`, `BETA` respectively (which is
how the source loop consumes them). -/
theorem c1 :
    (∀ (s : State) (p : Params),
        computeDerivative s p =
          ⟨p.p2 * (s.y - s.x), s.x * (p.p1 - s.z) - s.y,
            s.x * s.y - p.p3 * s.z⟩) ∧
      RHO = 10 ∧ SIGMA = 8 / 3 ∧ BETA = 28 ∧
      lorenzParams = ⟨RHO, SIGMA, BETA⟩ ∧
      ∀ s : State,
        loopBody s =
          ⟨s.x + dt * (computeDerivative s lorenzParams).dx,
            s.y + dt * (computeDerivative s lorenzParams).dy,
            s.z + dt * (computeDerivative s lorenzParams).dz⟩ :=
  ⟨fun _ _ => rfl, rfl, rfl, rfl, rfl, fun _ => rfl⟩

/-- C2: one `step` produces `(x + dt·dx, y + dt·dy, z + dt·dz)` where
`(dx, dy, dz)` is the derivative of the pre-step state as given by
`computeDerivative`; the program's `dt` is `0.001`, and the source loop body
is exactly such a step. -/
theorem c2 :
    (∀ (s : State) (p : Params) (h : ℚ),
        step s p h =
          ⟨s.x + h * (computeDerivative s p).dx,
            s.y + h * (computeDerivative s p).dy,
            s.z + h * (computeDerivative s p).dz⟩) ∧
      dt = 1 / 1000 ∧
      ∀ s : State, loopBody s = step s lorenzParams dt :=
  ⟨fun _ _ _ => rfl, rfl, fun _ => rfl⟩

/-- C3: within a step all three derivative components come from the same
pre-step state: the source loop body equals the snapshot-based `step`, every
state in the sequence is a whole `loopBody` image of its predecessor (never a
partial update), and the loop body differs from a variant that reads
already-updated coordinates. -/
theorem c3 :
    (∀ s : State, loopBody s = step s lorenzParams dt) ∧
      (∀ (s : State) (n : ℕ),
        runSeq s lorenzParams dt (n + 1) =
          loopBody (runSeq s lorenzParams dt n)) ∧
      loopBody ⟨0, 1, 0⟩ ≠ seqUpdateBody ⟨0, 1, 0⟩ := by
  refine ⟨fun _ => rfl, fun _ _ => rfl, ?_⟩
  simp only [loopBody, seqUpdateBody, SIGMA, RHO, BETA, dt, ne_eq,
    State.mk.injEq, not_and]
  intro _ h
  norm_num at h

/-- C4: at state `(1, 1, 1)` with the program's parameters,
`computeDerivative` yields exactly `(0, 8, −27)`, and one `step` with
`dt = 0.001` yields exactly `(1, 1.008, 0.973)` (the spec's "approximately"
is exact in exact arithmetic). -/
theorem c4 :
    computeDerivative ⟨1, 1, 1⟩ lorenzParams = ⟨0, 8, -27⟩ ∧
      step ⟨1, 1, 1⟩ lorenzParams dt = ⟨1, 1.008, 0.973⟩ := by
  constructor <;>
    · simp only [computeDerivative, step, lorenzParams, RHO, SIGMA, BETA, dt,
        Deriv.mk.injEq, State.mk.injEq]
      norm_num

/-- Data shown by one printed step-report line (source line 26): the step
index, the elapsed time `i·dt` it displays, and the state it displays. -/
structure Report where
  idx : ℕ
  time : ℚ
  state : State

/-- The initial-state report printed before the loop (source line 16). -/
def initialReport : State := s0

/-- The 99 post-initial reports of the run, one per loop index `i ∈ 1..99`
(the source loop is `for i in 1..100`). -/
def stepReports : List Report :=
  (List.range' 1 99).map fun i => ⟨i, (i : ℚ) * dt, traj i⟩

lemma stepReports_length : stepReports.length = 99 := by
  simp [stepReports]

lemma stepReports_getD (k : ℕ) (h : k < 99) :
    stepReports.getD k ⟨0, 0, s0⟩ =
      ⟨1 + k, ((1 + k : ℕ) : ℚ) * dt, traj (1 + k)⟩ := by
  have hlen : k < stepReports.length := by
    rw [stepReports_length]
    exact h
  rw [List.getD_eq_getElem _ _ hlen]
  simp [stepReports, List.getElem_map, List.getElem_range'_1]

/-- The decimal digits of a natural number. -/
def natDigits (n : ℕ) : String := String.mk (Nat.toDigits 10 n)

/-- `n` rendered in at least `d` digits, left-padded with zeros. -/
def padWithZeros (d n : ℕ) : String :=
  String.mk (List.replicate (d - (Nat.toDigits 10 n).length) '0' ++
    Nat.toDigits 10 n)

/-- A scaled integer `m` (in units of `10 ^ (-d)`) rendered with `d` digits
after the decimal point. -/
def fmtScaled (d : ℕ) (m : ℤ) : String :=
  (if m < 0 then "-" else "") ++ natDigits (m.natAbs / 10 ^ d) ++ "." ++
    padWithZeros d (m.natAbs % 10 ^ d)

/-- Fixed-point rendering of a rational with `d` digits after the decimal
point, rounding to nearest: the shallow model of Rust's fixed-precision
float formatting used on source line 26. -/
def fmtFixed (d : ℕ) (q : ℚ) : String := fmtScaled d (round (q * (10 : ℚ) ^ d))

/-- The step-report line printed on source line 26: elapsed time `i·dt` to 3
decimal digits, then the state as a bracketed triple to 8 decimal digits. -/
def stepLine (i : ℕ) : String :=
  "t = " ++ fmtFixed 3 ((i : ℚ) * dt) ++ (", [" ++ (fmtFixed 8 (traj i).x ++
    (", " ++ (fmtFixed 8 (traj i).y ++ (", " ++ (fmtFixed 8 (traj i).z ++ "]"))))))

lemma round_ninetynine : round ((99 : ℚ) * dt * (10 : ℚ) ^ (3 : ℕ)) = 99 := by
  have h : ((99 : ℚ) * dt * (10 : ℚ) ^ (3 : ℕ)) = ((99 : ℤ) : ℚ) := by
    norm_num [dt]
  rw [h, round_intCast]

lemma fmt_ninetynine : fmtFixed 3 ((99 : ℚ) * dt) = "0.099" := by
  show fmtScaled 3 (round ((99 : ℚ) * dt * (10 : ℚ) ^ (3 : ℕ))) = "0.099"
  rw [round_ninetynine]
  decide

/-- C5: the loop applies `step` exactly 99 times with step indices 1..99 and
then terminates: the run yields the finite list `stepReports` of exactly 99
post-initial reports, the `k`-th carrying index `1 + k` and the `(1+k)`-fold
stepped state, in addition to the one initial-state report. -/
theorem c5 :
    stepReports.length = 99 ∧
      (∀ k : ℕ, k < 99 →
        stepReports.getD k ⟨0, 0, s0⟩ =
          ⟨1 + k, ((1 + k : ℕ) : ℚ) * dt, traj (1 + k)⟩) ∧
      initialReport = s0 :=
  ⟨stepReports_length, fun k h => stepReports_getD k h, rfl⟩

/-- Witness for C5 at the first report. -/
theorem c5_witness :
    0 < 99 ∧
      stepReports.getD 0 ⟨0, 0, s0⟩ =
        ⟨1 + 0, ((1 + 0 : ℕ) : ℚ) * dt, traj (1 + 0)⟩ :=
  ⟨by norm_num, c5.2.1 0 (by norm_num)⟩

/-- C9: every post-step report shows elapsed time `StepIndex × dt` (rendered
to 3 decimal digits by `fmtFixed 3`) followed by the state as a bracketed
triple rendered to 8 decimal digits, and the final line's elapsed time reads
exactly "t = 0.099". -/
theorem c9 :
    (∀ k : ℕ, k < 99 →
        (stepReports.getD k ⟨0, 0, s0⟩).time =
          ((stepReports.getD k ⟨0, 0, s0⟩).idx : ℚ) * dt) ∧
      (∀ i : ℕ,
        stepLine i =
          "t = " ++ fmtFixed 3 ((i : ℚ) * dt) ++ (", [" ++
            (fmtFixed 8 (traj i).x ++ (", " ++ (fmtFixed 8 (traj i).y ++
              (", " ++ (fmtFixed 8 (traj i).z ++ "]"))))))) ∧
      fmtFixed 3 ((99 : ℚ) * dt) = "0.099" ∧
      "t = " ++ fmtFixed 3 ((99 : ℚ) * dt) = "t = 0.099" := by
  refine ⟨?_, fun i => rfl, fmt_ninetynine, ?_⟩
  · intro k h
    rw [stepReports_getD k h]
  · rw [fmt_ninetynine]
    decide

/-- Witness for C9 at the first report. -/
theorem c9_witness :
    0 < 99 ∧
      (stepReports.getD 0 ⟨0, 0, s0⟩).time =
        ((stepReports.getD 0 ⟨0, 0, s0⟩).idx : ℚ) * dt :=
  ⟨by norm_num, c9.1 0 (by norm_num)⟩

/-- C6: `step` is deterministic and stateless: runs with equal initial state,
equal parameters and equal `dt` produce identical state sequences, and the
successor of a state in the sequence depends only on that state (no hidden
memory of earlier states or derivatives). -/
theorem c6 :
    (∀ (s₁ s₂ : State) (p₁ p₂ : Params) (h₁ h₂ : ℚ),
        s₁ = s₂ → p₁ = p₂ → h₁ = h₂ →
          ∀ n : ℕ, runSeq s₁ p₁ h₁ n = runSeq s₂ p₂ h₂ n) ∧
      (∀ (s : State) (p : Params) (h : ℚ) (m n : ℕ),
        runSeq s p h m = runSeq s p h n →
          runSeq s p h (m + 1) = runSeq s p h (n + 1)) := by
  constructor
  · rintro s₁ s₂ p₁ p₂ h₁ h₂ rfl rfl rfl n
    rfl
  · intro s p h m n hmn
    simp only [runSeq, hmn]

/-- Witness for C6 at concrete inputs. -/
theorem c6_witness :
    runSeq s0 lorenzParams dt 2 = runSeq s0 lorenzParams dt 2 ∧
      runSeq s0 lorenzParams dt 1 = runSeq s0 lorenzParams dt 1 :=
  ⟨c6.1 s0 s0 lorenzParams lorenzParams dt dt rfl rfl rfl 2,
    c6.2 s0 lorenzParams dt 0 0 rfl⟩

/-- C7: `computeDerivative` and `step` are total with no error branch: for
every input they unconditionally return the Euler formulas (no validation of
`dt > 0`); with `dt = 0` the state does not move at all, and with `dt < 0`
the displacement is exactly reversed (silent backward integration). -/
theorem c7 :
    (∀ (s : State) (p : Params) (h : ℚ),
        step s p h =
          ⟨s.x + h * (computeDerivative s p).dx,
            s.y + h * (computeDerivative s p).dy,
            s.z + h * (computeDerivative s p).dz⟩) ∧
      (∀ (s : State) (p : Params), step s p 0 = s) ∧
      (∀ (s : State) (p : Params) (h : ℚ),
        (step s p (-h)).x - s.x = -((step s p h).x - s.x) ∧
        (step s p (-h)).y - s.y = -((step s p h).y - s.y) ∧
        (step s p (-h)).z - s.z = -((step s p h).z - s.z)) := by
  refine ⟨fun _ _ _ => rfl, fun s p => ?_, fun s p h => ⟨?_, ?_, ?_⟩⟩
  · cases s
    simp [step, computeDerivative]
  all_goals
    simp only [step, computeDerivative]
    ring

/-- C8: for a fixed state and parameters the per-step displacement is exactly
`dt` times the `dt`-independent derivative, hence halving `dt` exactly halves
each displacement component in exact arithmetic. -/
theorem c8 :
    ∀ (s : State) (p : Params) (h : ℚ),
      ((step s p h).x - s.x = h * (computeDerivative s p).dx ∧
        (step s p h).y - s.y = h * (computeDerivative s p).dy ∧
        (step s p h).z - s.z = h * (computeDerivative s p).dz) ∧
      ((step s p (h / 2)).x - s.x = ((step s p h).x - s.x) / 2 ∧
        (step s p (h / 2)).y - s.y = ((step s p h).y - s.y) / 2 ∧
        (step s p (h / 2)).z - s.z = ((step s p h).z - s.z) / 2) := by
  intro s p h
  refine ⟨⟨?_, ?_, ?_⟩, ⟨?_, ?_, ?_⟩⟩ <;>
    · simp only [step, computeDerivative]
      ring

/-- `absBound s M`: every coordinate of `s` has absolute value at most `M`. -/
def absBound (s : State) (M : ℚ) : Prop := |s.x| ≤ M ∧ |s.y| ≤ M ∧ |s.z| ≤ M

/-- Precomputed per-step norm bounds for the program's run, scaled by `10^4`:
entry `n` is an upper bound for `10^4` times the max-norm of `traj n`. -/
def boundScaled : List ℤ :=
  [10000, 10290, 10589, 10897, 11214, 11541, 11878, 12225, 12583, 12952,
   13332, 13724, 14128, 14544, 14973, 15415, 15871, 16341, 16826, 17326,
   17842, 18374, 18923, 19489, 20073, 20676, 21298, 21940, 22603, 23287,
   23994, 24724, 25478, 26257, 27062, 27893, 28752, 29640, 30558, 31508,
   32490, 33506, 34557, 35645, 36771, 37936, 39143, 40393, 41688, 43030,
   44420, 45862, 47357, 48908, 50517, 52187, 53921, 55722, 57593, 59538,
   61560, 63663, 65851, 68129, 70501, 72973, 75549, 78236, 81039, 83965,
   87022, 90216, 93556, 97051, 100711, 104546, 108567, 112786, 117217,
   121874, 126772, 131929, 137364, 143098, 149153, 155554, 162330, 169511,
   177131, 185229, 193847, 203033, 212841, 223331, 234572, 246643, 259633,
   273644, 288795, 305222]

/-- The scaled bound at step `n`. -/
def boundAt (n : ℕ) : ℤ := boundScaled.getD n 400000

/-- The rational norm bound at step `n`. -/
def boundQ (n : ℕ) : ℚ := (boundAt n : ℚ) / 10000

lemma chainScaled :
    (List.range 99).all (fun n =>
      decide (boundAt n * 10000000 + boundAt n * boundAt n +
        280000 * boundAt n ≤ boundAt (n + 1) * 10000000)) = true := by
  decide

lemma boundScaled_le :
    (List.range 100).all (fun n => decide (boundAt n ≤ 400000)) = true := by
  decide

lemma chainQ (n : ℕ) (h : n < 99) :
    boundQ n + dt * (boundQ n * boundQ n + 28 * boundQ n) ≤ boundQ (n + 1) := by
  have hb : boundAt n * 10000000 + boundAt n * boundAt n + 280000 * boundAt n ≤
      boundAt (n + 1) * 10000000 :=
    of_decide_eq_true (List.all_eq_true.mp chainScaled n (List.mem_range.mpr h))
  have hc : (boundAt n : ℚ) * 10000000 + (boundAt n : ℚ) * (boundAt n : ℚ) +
      280000 * (boundAt n : ℚ) ≤ (boundAt (n + 1) : ℚ) * 10000000 := by
    exact_mod_cast hb
  simp only [boundQ, dt]
  linarith

lemma bound40 (n : ℕ) (h : n < 100) : boundQ n ≤ 40 := by
  have hb : boundAt n ≤ 400000 :=
    of_decide_eq_true (List.all_eq_true.mp boundScaled_le n (List.mem_range.mpr h))
  have hc : (boundAt n : ℚ) ≤ 400000 := by exact_mod_cast hb
  simp only [boundQ]
  linarith

lemma absBound_mono (s : State) (M M' : ℚ) (h : absBound s M) (hle : M ≤ M') :
    absBound s M' :=
  ⟨h.1.trans hle, h.2.1.trans hle, h.2.2.trans hle⟩

lemma stepBound (s : State) (M : ℚ) (hM : 0 ≤ M) (h : absBound s M) :
    absBound (step s lorenzParams dt) (M + dt * (M * M + 28 * M)) := by
  obtain ⟨hx, hy, hz⟩ := h
  have hxz : |s.x * s.z| ≤ M * M := by
    rw [abs_mul]
    exact mul_le_mul hx hz (abs_nonneg _) hM
  have hxy : |s.x * s.y| ≤ M * M := by
    rw [abs_mul]
    exact mul_le_mul hx hy (abs_nonneg _) hM
  rw [abs_le] at hx hy hz hxz hxy
  refine ⟨?_, ?_, ?_⟩
  · show |s.x + dt * (SIGMA * (s.y - s.x))| ≤ M + dt * (M * M + 28 * M)
    simp only [SIGMA, dt]
    rw [abs_le]
    constructor <;> linarith [hx.1, hx.2, hy.1, hy.2, hM]
  · show |s.y + dt * (s.x * (RHO - s.z) - s.y)| ≤ M + dt * (M * M + 28 * M)
    simp only [RHO, dt]
    rw [abs_le]
    constructor <;> linarith [hx.1, hx.2, hy.1, hy.2, hxz.1, hxz.2, hM]
  · show |s.z + dt * (s.x * s.y - BETA * s.z)| ≤ M + dt * (M * M + 28 * M)
    simp only [BETA, dt]
    rw [abs_le]
    constructor <;> linarith [hz.1, hz.2, hxy.1, hxy.2, hM]

lemma trajBound : ∀ n : ℕ, n < 100 → absBound (traj n) (boundQ n) := by
  intro n
  induction n with
  | zero =>
    intro _
    have hA0 : boundAt 0 = 10000 := by decide
    refine ⟨?_, ?_, ?_⟩ <;>
      · show |(1 : ℚ)| ≤ boundQ 0
        simp only [boundQ, hA0]
        norm_num
  | succ n ih =>
    intro hlt
    have hn99 : n < 99 := by omega
    have hb := ih (by omega)
    have hM0 : 0 ≤ boundQ n := le_trans (abs_nonneg _) hb.1
    have hs := stepBound (traj n) (boundQ n) hM0 hb
    have ht : traj (n + 1) = step (traj n) lorenzParams dt := rfl
    rw [ht]
    exact absBound_mono _ _ _ hs (chainQ n hn99)

/-- C10: in the concrete run baked into the program, every one of the states
(initial plus the 99 produced by the loop) has all three coordinates of
absolute value at most 40 — in particular every coordinate stays finite and
the printed values are ordinary finite decimals. -/
theorem c10 :
    ∀ n : ℕ, n ≤ 99 →
      |(traj n).x| ≤ 40 ∧ |(traj n).y| ≤ 40 ∧ |(traj n).z| ≤ 40 := by
  intro n h
  have h100 : n < 100 := by omega
  have hb := trajBound n h100
  have h40 := bound40 n h100
  exact ⟨hb.1.trans h40, hb.2.1.trans h40, hb.2.2.trans h40⟩

/-- Witness for C10 at the initial state. -/
theorem c10_witness :
    0 ≤ 99 ∧ (|(traj 0).x| ≤ 40 ∧ |(traj 0).y| ≤ 40 ∧ |(traj 0).z| ≤ 40) :=
  ⟨by norm_num, c10 0 (by norm_num)⟩

end Lorenz
